import Mathlib

/-!
Verification development for the crypto-review-tool OHLCV pipeline.

This file gives a shallow embedding of the core of the repository:

* the indicator layer (`src/lib/indicators.ts`): wrappers `calculateSMA`,
  `calculateEMA`, `calculateRSI`, `calculateMACD`, `calculateBollingerBands`
  around the `technicalindicators` npm library, modelled here from the spec
  since the library itself is a third-party dependency, not part of the repo;
* the cached-klines API route (`GET`, `fetchFromBinance`, `fetchCompleteData`),
  embedded as pure functions over an explicit fetch oracle and an explicit
  cache state.

JavaScript `number` arithmetic on timestamps and prices is modelled with exact
rational arithmetic (`ℚ`); exchange timestamps are integers (`ℤ`, milliseconds).
-/

section CryptoReviewTool

attribute [local semireducible] Rat.mul Rat.add Rat.sub Rat.inv

/-- Candle as used throughout the repository: `time` is in seconds (possibly
fractional, since the code computes it as `timestampMs / 1000` with JS `/`),
the remaining fields are prices/volume. -/
structure Candle where
  time : ℚ
  «open» : ℚ
  high : ℚ
  low : ℚ
  close : ℚ
  volume : ℚ
deriving DecidableEq

/-- Exchange-native OHLCV record `[timestampMs, open, high, low, close, volume]`
as returned by `exchange.fetchOHLCV`; the timestamp is in integer milliseconds. -/
structure RawCandle where
  tms : ℤ
  «open» : ℚ
  high : ℚ
  low : ℚ
  close : ℚ
  volume : ℚ
deriving DecidableEq

/-- Conversion applied to every exchange record by the klines routes:
`time: candle[0] / 1000` (JS division, exact here), other fields copied. -/
def toCandle (r : RawCandle) : Candle :=
  { time := (r.tms : ℚ) / 1000
    «open» := r.«open»
    high := r.high
    low := r.low
    close := r.close
    volume := r.volume }

/-- Output entry of single-line indicators (SMA, EMA, RSI). -/
structure IndicatorData where
  time : ℚ
  value : ℚ
deriving DecidableEq

/-- Output entry of MACD. -/
structure MACDData where
  time : ℚ
  macd : ℚ
  signal : ℚ
  histogram : ℚ
deriving DecidableEq

/-- Output entry of Bollinger Bands. -/
structure BollingerBandsData where
  time : ℚ
  upper : ℚ
  middle : ℚ
  lower : ℚ
deriving DecidableEq

/-- Default used to totalise JS array indexing `data[i]` in the wrappers. -/
def dummyCandle : Candle := ⟨0, 0, 0, 0, 0, 0⟩

/-- Default entry for totalised indexing into indicator outputs. -/
def dummyIndicatorData : IndicatorData := ⟨0, 0⟩

/-- Default entry for totalised indexing into MACD outputs. -/
def dummyMACDData : MACDData := ⟨0, 0, 0, 0⟩

/-- Default entry for totalised indexing into Bollinger outputs. -/
def dummyBollingerBandsData : BollingerBandsData := ⟨0, 0, 0, 0⟩

/-- Modelled from the spec: `SMA.calculate` of the `technicalindicators`
library (not part of this repository). Given a period and a value series it
returns the window averages; the first output consumes `period` inputs, so
the output length is `n + 1 - period` for `n ≥ period` and the result is
empty for shorter inputs. -/
def SMA_calculate (period : ℕ) (values : List ℚ) : List ℚ :=
  if values.length < period then []
  else
    (List.range (values.length + 1 - period)).map
      (fun i => ((values.drop i).take period).sum / (period : ℚ))

/-- Modelled from the spec: `EMA.calculate` of the `technicalindicators`
library (not part of this repository). The first output is the SMA of the
first `period` values; each later value is exponentially smoothed with
multiplier `2 / (period + 1)`. Output length is `n + 1 - period` for
`n ≥ period`, empty otherwise. -/
def EMA_calculate (period : ℕ) (values : List ℚ) : List ℚ :=
  if values.length < period then []
  else
    let seed : ℚ := (values.take period).sum / (period : ℚ)
    (values.drop period).scanl
      (fun prev v => (v - prev) * (2 / ((period : ℚ) + 1)) + prev) seed

/-- Modelled from the spec: `RSI.calculate` of the `technicalindicators`
library (not part of this repository). One candle is consumed by the first
differencing step, so the warmup is `period + 1` inputs and the output length
is `n - period` for `n ≥ period + 1`, empty otherwise. Average gains/losses
use Wilder smoothing. -/
def RSI_calculate (period : ℕ) (values : List ℚ) : List ℚ :=
  if values.length < period + 1 then []
  else
    let changes := (values.zip values.tail).map (fun pr => pr.2 - pr.1)
    let gains := changes.map (fun c => if 0 < c then c else 0)
    let losses := changes.map (fun c => if c < 0 then -c else 0)
    let seed : ℚ × ℚ :=
      ((gains.take period).sum / (period : ℚ), (losses.take period).sum / (period : ℚ))
    let avgs := ((gains.drop period).zip (losses.drop period)).scanl
      (fun s gl =>
        ((s.1 * ((period : ℚ) - 1) + gl.1) / (period : ℚ),
         (s.2 * ((period : ℚ) - 1) + gl.2) / (period : ℚ))) seed
    avgs.map (fun s => if s.2 = 0 then 100 else 100 - 100 / (1 + s.1 / s.2))

/-- Modelled from the spec: `MACD.calculate` of the `technicalindicators`
library (not part of this repository), with exponential oscillator and signal.
Entries are `(macd, signal, histogram)`; the first entry appears once both the
slow EMA and the signal EMA exist, so the warmup offset is
`slowPeriod + signalPeriod - 2` and the output length is
`n - (slowPeriod + signalPeriod - 2)` for long enough inputs. The MACD line
itself is the pointwise difference of the fast and slow EMAs, aligned at the
slow warmup. -/
def macdLine (fastPeriod slowPeriod : ℕ) (values : List ℚ) : List ℚ :=
  List.zipWith (fun a b => a - b)
    ((EMA_calculate fastPeriod values).drop (slowPeriod - fastPeriod))
    (EMA_calculate slowPeriod values)

/-- MACD output assembly: pair the MACD line (from the point where the signal
EMA exists) with the signal line and the histogram difference. -/
def MACD_calculate (fastPeriod slowPeriod signalPeriod : ℕ) (values : List ℚ) :
    List (ℚ × ℚ × ℚ) :=
  List.zipWith (fun m sg => (m, sg, m - sg))
    ((macdLine fastPeriod slowPeriod values).drop (signalPeriod - 1))
    (EMA_calculate signalPeriod (macdLine fastPeriod slowPeriod values))

/-- Modelled from the spec: `BollingerBands.calculate` of the
`technicalindicators` library (not part of this repository). Entries are
`(upper, middle, lower)` with `middle` the window SMA and the band width
`stdDev` times the window standard deviation; the square root (floating point
in the library) is abstracted as the parameter `sqrtQ`, which the repository
never inspects structurally. Output length is `n + 1 - period` for
`n ≥ period`, empty otherwise. -/
def BollingerBands_calculate (period : ℕ) (stdDev : ℚ) (sqrtQ : ℚ → ℚ)
    (values : List ℚ) : List (ℚ × ℚ × ℚ) :=
  if values.length < period then []
  else
    (List.range (values.length + 1 - period)).map (fun i =>
      let w := (values.drop i).take period
      let middle := w.sum / (period : ℚ)
      let sd := sqrtQ ((w.map (fun x => (x - middle) * (x - middle))).sum / (period : ℚ))
      (middle + stdDev * sd, middle, middle - stdDev * sd))

/-- calculateSMA from `src/lib/indicators.ts`: maps library outputs back to
time-value pairs using `data[index + period - 1].time` (JS indexing totalised
with `dummyCandle`; the proofs show the index is always in bounds). -/
def calculateSMA (data : List Candle) (period : ℕ) : List IndicatorData :=
  let closes := data.map (fun d => d.close)
  let smaValues := SMA_calculate period closes
  smaValues.mapIdx (fun index value =>
    { time := (data.getD (index + period - 1) dummyCandle).time, value := value })

/-- calculateEMA from `src/lib/indicators.ts`, offset `period - 1`. -/
def calculateEMA (data : List Candle) (period : ℕ) : List IndicatorData :=
  let closes := data.map (fun d => d.close)
  let emaValues := EMA_calculate period closes
  emaValues.mapIdx (fun index value =>
    { time := (data.getD (index + period - 1) dummyCandle).time, value := value })

/-- calculateRSI from `src/lib/indicators.ts`, offset `period`. -/
def calculateRSI (data : List Candle) (period : ℕ) : List IndicatorData :=
  let closes := data.map (fun d => d.close)
  let rsiValues := RSI_calculate period closes
  rsiValues.mapIdx (fun index value =>
    { time := (data.getD (index + period) dummyCandle).time, value := value })

/-- calculateMACD from `src/lib/indicators.ts`, offset
`slowPeriod + signalPeriod - 2`. -/
def calculateMACD (data : List Candle) (fastPeriod slowPeriod signalPeriod : ℕ) :
    List MACDData :=
  let closes := data.map (fun d => d.close)
  let macdResults := MACD_calculate fastPeriod slowPeriod signalPeriod closes
  let offset := slowPeriod + signalPeriod - 2
  macdResults.mapIdx (fun index r =>
    { time := (data.getD (index + offset) dummyCandle).time
      macd := r.1
      signal := r.2.1
      histogram := r.2.2 })

/-- calculateBollingerBands from `src/lib/indicators.ts`, offset `period - 1`. -/
def calculateBollingerBands (data : List Candle) (period : ℕ) (stdDev : ℚ)
    (sqrtQ : ℚ → ℚ) : List BollingerBandsData :=
  let closes := data.map (fun d => d.close)
  let bbResults := BollingerBands_calculate period stdDev sqrtQ closes
  bbResults.mapIdx (fun index r =>
    { time := (data.getD (index + period - 1) dummyCandle).time
      upper := r.1
      middle := r.2.1
      lower := r.2.2 })

/-- Record of one `fetchOHLCV` call: the `since` argument (`none` models the
JS `undefined` of the no-settings fallback path) and the `limit` argument. -/
abbrev FetchCall := Option ℤ × ℤ

/-- Fetch oracle standing for `exchange.fetchOHLCV(symbol, timeframe, since,
limit)` for the fixed symbol/timeframe of one request. -/
abbrev FetchOracle := Option ℤ → ℤ → List RawCandle

/-- Timeframe lookup of `fetchCompleteData`: the fixed table
`{1m:1, 5m:5, 15m:15, 1h:60, 4h:240, 1d:1440}` with the `|| 60` default on
unknown keys. -/
def timeframeToMinutes (tf : String) : ℕ :=
  if tf = "1m" then 1
  else if tf = "5m" then 5
  else if tf = "15m" then 15
  else if tf = "1h" then 60
  else if tf = "4h" then 240
  else if tf = "1d" then 1440
  else 60

/-- Required candle count of `fetchCompleteData`:
`totalMinutes = (end - start) / (1000 * 60)`;
`requiredLimit = Math.ceil(totalMinutes / minutesPerCandle)` (exact rational
arithmetic models the JS numbers). -/
def requiredLimit (tf : String) (startTimestamp endTimestamp : ℤ) : ℤ :=
  ⌈(((endTimestamp - startTimestamp : ℤ) : ℚ) / (1000 * 60)) / (timeframeToMinutes tf : ℚ)⌉

/-- One step of the JS `Map` construction
`new Map(allData.map(item => [item.time, item]))`: an existing key keeps its
(first-insertion) position but takes the new value; a new key is appended. -/
def mapInsert (m : List Candle) (c : Candle) : List Candle :=
  if c.time ∈ m.map Candle.time then
    m.map (fun x => if x.time = c.time then c else x)
  else
    m ++ [c]

/-- Deduplication by `time`, last-seen-wins, first-seen key order: the JS
`Array.from(new Map(allData.map(item => [item.time, item])).values())`. -/
def dedupByTime (allData : List Candle) : List Candle :=
  allData.foldl mapInsert []

/-- Sort ascending by `time`: `filteredData.sort((a, b) => a.time - b.time)`
(also used to model Prisma's `orderBy: {time: 'asc'}` read). -/
def sortTimeAsc (l : List Candle) : List Candle :=
  l.insertionSort (fun a b => a.time ≤ b.time)

/-- Final stage of `fetchCompleteData`: remove duplicate times, filter to
`candle.time * 1000 ∈ [startTimestamp, endTimestamp]`, sort ascending. -/
def postprocess (startTimestamp endTimestamp : ℤ) (allData : List Candle) : List Candle :=
  let uniqueData := dedupByTime allData
  let filteredData := uniqueData.filter (fun c =>
    decide ((startTimestamp : ℚ) ≤ c.time * 1000) && decide (c.time * 1000 ≤ (endTimestamp : ℚ)))
  sortTimeAsc filteredData

/-- Multi-batch loop of `fetchCompleteData`, recursion on the remaining batch
budget (`numBatches` in the code, with the loop-top stop on
`currentSince >= endTimestamp`, the stop on an empty batch, and
`currentSince = lastCandle.time * 1000 + minutesPerCandle * 60 * 1000`;
`lastCandle.time * 1000` equals the last record's integer milliseconds, so the
advance is computed on `tms` directly). Returns the fetch calls issued and the
concatenated raw rows. -/
def batchLoop (fetch : FetchOracle) (minutesPerCandle : ℕ) (endTimestamp : ℤ) :
    ℕ → ℤ → List FetchCall × List RawCandle
  | 0, _ => ([], [])
  | fuel + 1, currentSince =>
    if endTimestamp ≤ currentSince then ([], [])
    else
      let ohlcv := fetch (some currentSince) 1000
      match ohlcv.getLast? with
      | none => ([(some currentSince, 1000)], [])
      | some lastCandle =>
        let nextSince := lastCandle.tms + (minutesPerCandle : ℤ) * 60 * 1000
        let rest := batchLoop fetch minutesPerCandle endTimestamp fuel nextSince
        ((some currentSince, 1000) :: rest.1, ohlcv ++ rest.2)

/-- Raw stage of fetchCompleteData from the cached-klines route: computes the
required candle count, then either issues a single fetch with
`limit = requiredLimit` (when it is at most the 1000-candle cap) or runs the
batch loop with `numBatches = Math.ceil(requiredLimit / 1000)`. Returns the
issued fetch calls alongside the raw rows. -/
def fetchRaw (fetch : FetchOracle) (tf : String)
    (startTimestamp endTimestamp : ℤ) : List FetchCall × List RawCandle :=
  if requiredLimit tf startTimestamp endTimestamp ≤ 1000 then
    ([(some startTimestamp, requiredLimit tf startTimestamp endTimestamp)],
      fetch (some startTimestamp) (requiredLimit tf startTimestamp endTimestamp))
  else
    batchLoop fetch (timeframeToMinutes tf) endTimestamp
      (⌈(requiredLimit tf startTimestamp endTimestamp : ℚ) / 1000⌉).toNat startTimestamp

/-- Final shape of `fetchCompleteData`: the calls issued by the raw stage and
the deduplicated, filtered, sorted candle series. -/
def fetchCompleteData (fetch : FetchOracle) (tf : String)
    (startTimestamp endTimestamp : ℤ) : List FetchCall × List Candle :=
  ((fetchRaw fetch tf startTimestamp endTimestamp).1,
    postprocess startTimestamp endTimestamp
      ((fetchRaw fetch tf startTimestamp endTimestamp).2.map toCandle))

/-- Settings/anchor record for an (ownerId, symbol) pair; only the publish
time anchor matters to the cached-klines route. -/
structure CoinSettings where
  publishTime : ℤ
deriving DecidableEq

/-- Observable outcome of one cached-klines `GET` request: the returned series,
the returned `cached` flag (`none` models the fallback response, which carries
no `cached` field), the kline rows stored for the (coinSettings, timeframe)
key after the request, and the upstream fetch calls issued. -/
structure RouteResult where
  data : List Candle
  cached : Option Bool
  cacheAfter : List Candle
  calls : List FetchCall

/-- The cached-klines route `GET` handler, embedded over an explicit fetch
oracle and the cache rows stored for the request's (coinSettings, timeframe)
key. No settings: `fetchFromBinance(symbol, timeframe, undefined, 500)`, cache
untouched. Cache hit (no forced refresh, rows present): rows returned sorted
by time (`orderBy: time asc`), no fetch. Otherwise `fetchCompleteData` over
the window `publishTime - 1 day` to `publishTime + 4 days` (calendar-day
arithmetic idealised as fixed 86400000 ms days); a nonempty result replaces
the stored rows (deleteMany then createMany), an empty result is returned
with `cached: false` and the store is not written. -/
def cachedKlinesGET (fetch : FetchOracle) (tf : String)
    (coinSettings : Option CoinSettings) (forceRefresh : Bool)
    (prevCache : List Candle) : RouteResult :=
  match coinSettings with
  | none =>
    { data := (fetch none 500).map toCandle
      cached := none
      cacheAfter := prevCache
      calls := [(none, 500)] }
  | some cs =>
    if forceRefresh = false ∧ prevCache ≠ [] then
      { data := sortTimeAsc prevCache
        cached := some true
        cacheAfter := prevCache
        calls := [] }
    else
      let startTime := cs.publishTime - 86400000
      let endTime := cs.publishTime + 4 * 86400000
      let result := fetchCompleteData fetch tf startTime endTime
      if result.2 ≠ [] then
        { data := result.2
          cached := some false
          cacheAfter := result.2
          calls := result.1 }
      else
        { data := result.2
          cached := some false
          cacheAfter := prevCache
          calls := result.1 }

/-- Totality relation used for sorting candles by time. -/
instance : IsTotal Candle (fun a b => a.time ≤ b.time) :=
  ⟨fun a b => le_total a.time b.time⟩

/-- Transitivity relation used for sorting candles by time. -/
instance : IsTrans Candle (fun a b => a.time ≤ b.time) :=
  ⟨fun _ _ _ h1 h2 => le_trans h1 h2⟩

/-- Fetch oracle that always returns zero rows. -/
def emptyFetch : FetchOracle := fun _ _ => []

/-- Ideal 1-minute oracle: from any `since` it returns `limit` consecutive
1-minute candles starting at `since` (timestamps in milliseconds). -/
def ideal1m : FetchOracle := fun since limit =>
  match since with
  | none => []
  | some s0 => (List.range limit.toNat).map (fun k => ⟨s0 + 60000 * (k : ℤ), 0, 0, 0, 0, 0⟩)

/-- Ascending 100-candle sample series with `time = index`. -/
def sampleCandles : List Candle :=
  (List.range 100).map (fun k => ⟨(k : ℚ), 0, 0, 0, 0, 0⟩)

/-- Oracle used to exercise deduplication and range filtering: two records
share a timestamp and two records lie outside any window starting at 0. -/
def demoFetch : FetchOracle := fun _ _ =>
  [⟨60000, 0, 0, 0, 1, 0⟩, ⟨60000, 0, 0, 0, 2, 0⟩, ⟨-5000, 0, 0, 0, 3, 0⟩,
   ⟨500000000000, 0, 0, 0, 4, 0⟩]

/-- Oracle returning a single candle at time 0, used to exercise the
cache-replacement path with a nonempty assembly. -/
def singletonFetch : FetchOracle := fun _ _ => [⟨0, 1, 1, 1, 1, 1⟩]

/-- Previously stored cache row used in the cache-replacement scenarios. -/
def staleCandle : Candle := ⟨1, 1, 1, 1, 1, 1⟩

/-- Oracle whose batches are nonempty but contain only rows far outside the
windows used in the scenarios: the raw fetch succeeds, yet the filtered
assembly is empty. -/
def outOfRangeFetch : FetchOracle := fun _ _ => [⟨500000000000, 0, 0, 0, 4, 0⟩]

/-! Helper lemmas about totalised indexing and the modelled indicator
library, followed by the claim theorems. -/

theorem getD_of_lt {α : Type} (l : List α) (i : ℕ) (d : α) (h : i < l.length) :
    l.getD i d = l.get ⟨i, h⟩ := by
  simp [List.getD_eq_getElem?_getD, List.getElem?_eq_getElem h]

theorem getD_mapIdx {α β : Type} (l : List α) (f : ℕ → α → β) (i : ℕ) (d : β)
    (h : i < l.length) : (l.mapIdx f).getD i d = f i (l.get ⟨i, h⟩) := by
  have h' : i < (l.mapIdx f).length := by rw [List.length_mapIdx]; exact h
  rw [getD_of_lt _ _ _ h']
  exact List.get_mapIdx l f i h h'

theorem SMA_calculate_length (p : ℕ) (vs : List ℚ) (h : p ≤ vs.length) :
    (SMA_calculate p vs).length = vs.length + 1 - p := by
  rw [SMA_calculate, if_neg (by omega)]
  simp

theorem EMA_calculate_length (p : ℕ) (vs : List ℚ) (h : p ≤ vs.length) :
    (EMA_calculate p vs).length = vs.length + 1 - p := by
  rw [EMA_calculate, if_neg (by omega)]
  simp [List.length_scanl]
  omega

theorem RSI_calculate_length (p : ℕ) (vs : List ℚ) (h : p + 1 ≤ vs.length) :
    (RSI_calculate p vs).length = vs.length - p := by
  rw [RSI_calculate, if_neg (by omega)]
  simp [List.length_scanl]
  omega

theorem macdLine_length (f s : ℕ) (vs : List ℚ) (hf : 1 ≤ f) (hfs : f ≤ s)
    (hn : s ≤ vs.length) : (macdLine f s vs).length = vs.length + 1 - s := by
  rw [macdLine, List.length_zipWith, List.length_drop,
    EMA_calculate_length f vs (by omega), EMA_calculate_length s vs hn]
  omega

theorem MACD_calculate_length (f s sig : ℕ) (vs : List ℚ) (hf : 1 ≤ f) (hfs : f ≤ s)
    (hsig : 1 ≤ sig) (hn : s + sig - 1 ≤ vs.length) :
    (MACD_calculate f s sig vs).length = vs.length - (s + sig - 2) := by
  have hs : s ≤ vs.length := by omega
  have hml : (macdLine f s vs).length = vs.length + 1 - s := macdLine_length f s vs hf hfs hs
  have hsig_le : sig ≤ (macdLine f s vs).length := by omega
  rw [MACD_calculate, List.length_zipWith, List.length_drop,
    EMA_calculate_length sig _ hsig_le, hml]
  omega

theorem BollingerBands_calculate_length (p : ℕ) (sd : ℚ) (sq : ℚ → ℚ) (vs : List ℚ)
    (h : p ≤ vs.length) :
    (BollingerBands_calculate p sd sq vs).length = vs.length + 1 - p := by
  rw [BollingerBands_calculate, if_neg (by omega)]
  simp

theorem calculateSMA_length (data : List Candle) (p : ℕ) (h2 : p ≤ data.length) :
    (calculateSMA data p).length = data.length + 1 - p := by
  simp only [calculateSMA, List.length_mapIdx]
  rw [SMA_calculate_length p _ (by simpa using h2), List.length_map]

theorem calculateEMA_length (data : List Candle) (p : ℕ) (h2 : p ≤ data.length) :
    (calculateEMA data p).length = data.length + 1 - p := by
  simp only [calculateEMA, List.length_mapIdx]
  rw [EMA_calculate_length p _ (by simpa using h2), List.length_map]

theorem calculateRSI_length (data : List Candle) (p : ℕ) (h2 : p + 1 ≤ data.length) :
    (calculateRSI data p).length = data.length - p := by
  simp only [calculateRSI, List.length_mapIdx]
  rw [RSI_calculate_length p _ (by simpa using h2), List.length_map]

theorem calculateMACD_length (data : List Candle) (f s sig : ℕ) (hf : 1 ≤ f)
    (hfs : f ≤ s) (hsig : 1 ≤ sig) (hn : s + sig - 1 ≤ data.length) :
    (calculateMACD data f s sig).length = data.length - (s + sig - 2) := by
  simp only [calculateMACD, List.length_mapIdx]
  rw [MACD_calculate_length f s sig _ hf hfs hsig (by simpa using hn), List.length_map]

theorem calculateBollingerBands_length (data : List Candle) (p : ℕ) (sd : ℚ)
    (sq : ℚ → ℚ) (h2 : p ≤ data.length) :
    (calculateBollingerBands data p sd sq).length = data.length + 1 - p := by
  simp only [calculateBollingerBands, List.length_mapIdx]
  rw [BollingerBands_calculate_length p sd sq _ (by simpa using h2), List.length_map]

theorem calculateSMA_time (data : List Candle) (p i : ℕ)
    (hi : i < (SMA_calculate p (data.map (fun d => d.close))).length) :
    ((calculateSMA data p).getD i dummyIndicatorData).time
      = (data.getD (i + p - 1) dummyCandle).time := by
  simp only [calculateSMA]
  rw [getD_mapIdx _ _ _ _ hi]

theorem calculateEMA_time (data : List Candle) (p i : ℕ)
    (hi : i < (EMA_calculate p (data.map (fun d => d.close))).length) :
    ((calculateEMA data p).getD i dummyIndicatorData).time
      = (data.getD (i + p - 1) dummyCandle).time := by
  simp only [calculateEMA]
  rw [getD_mapIdx _ _ _ _ hi]

theorem calculateRSI_time (data : List Candle) (p i : ℕ)
    (hi : i < (RSI_calculate p (data.map (fun d => d.close))).length) :
    ((calculateRSI data p).getD i dummyIndicatorData).time
      = (data.getD (i + p) dummyCandle).time := by
  simp only [calculateRSI]
  rw [getD_mapIdx _ _ _ _ hi]

theorem calculateMACD_time (data : List Candle) (f s sig i : ℕ)
    (hi : i < (MACD_calculate f s sig (data.map (fun d => d.close))).length) :
    ((calculateMACD data f s sig).getD i dummyMACDData).time
      = (data.getD (i + (s + sig - 2)) dummyCandle).time := by
  simp only [calculateMACD]
  rw [getD_mapIdx _ _ _ _ hi]

theorem calculateBollingerBands_time (data : List Candle) (p i : ℕ) (sd : ℚ)
    (sq : ℚ → ℚ)
    (hi : i < (BollingerBands_calculate p sd sq (data.map (fun d => d.close))).length) :
    ((calculateBollingerBands data p sd sq).getD i dummyBollingerBandsData).time
      = (data.getD (i + p - 1) dummyCandle).time := by
  simp only [calculateBollingerBands]
  rw [getD_mapIdx _ _ _ _ hi]

/-- Claim C1: every indicator aligns its output to input timestamps: over an
ascending candle series long enough to cover the warmup, the output length is
the input length minus the warmup offset (period − 1 for SMA, EMA and
Bollinger Bands, period for RSI, slow + signal − 2 for MACD), and output entry
`i` carries the time of input candle `i + offset` (which is always in
bounds); in particular MACD(12,26,9) over a 100-candle series yields 67
entries whose first time equals the time of input candle 33. -/
theorem C1_indicator_alignment (data : List Candle)
    (hasc : List.Pairwise (fun a b => a.time < b.time) data) :
    (∀ p : ℕ, 1 ≤ p → p ≤ data.length →
      (calculateSMA data p).length = data.length - (p - 1) ∧
      (calculateEMA data p).length = data.length - (p - 1) ∧
      (∀ sd sq, (calculateBollingerBands data p sd sq).length = data.length - (p - 1)) ∧
      (∀ i, i < data.length - (p - 1) →
        i + (p - 1) < data.length ∧
        ((calculateSMA data p).getD i dummyIndicatorData).time
          = (data.getD (i + (p - 1)) dummyCandle).time ∧
        ((calculateEMA data p).getD i dummyIndicatorData).time
          = (data.getD (i + (p - 1)) dummyCandle).time ∧
        ∀ sd sq, ((calculateBollingerBands data p sd sq).getD i dummyBollingerBandsData).time
          = (data.getD (i + (p - 1)) dummyCandle).time)) ∧
    (∀ p : ℕ, 1 ≤ p → p + 1 ≤ data.length →
      (calculateRSI data p).length = data.length - p ∧
      ∀ i, i < data.length - p →
        i + p < data.length ∧
        ((calculateRSI data p).getD i dummyIndicatorData).time
          = (data.getD (i + p) dummyCandle).time) ∧
    (∀ f s sig : ℕ, 1 ≤ f → f ≤ s → 1 ≤ sig → s + sig - 1 ≤ data.length →
      (calculateMACD data f s sig).length = data.length - (s + sig - 2) ∧
      ∀ i, i < data.length - (s + sig - 2) →
        i + (s + sig - 2) < data.length ∧
        ((calculateMACD data f s sig).getD i dummyMACDData).time
          = (data.getD (i + (s + sig - 2)) dummyCandle).time) ∧
    (data.length = 100 →
      (calculateMACD data 12 26 9).length = 67 ∧
      ((calculateMACD data 12 26 9).getD 0 dummyMACDData).time
        = (data.getD 33 dummyCandle).time) := by
  have hmap : (data.map (fun d => d.close)).length = data.length := List.length_map _ _
  have partMACD : ∀ f s sig : ℕ, 1 ≤ f → f ≤ s → 1 ≤ sig → s + sig - 1 ≤ data.length →
      (calculateMACD data f s sig).length = data.length - (s + sig - 2) ∧
      ∀ i, i < data.length - (s + sig - 2) →
        i + (s + sig - 2) < data.length ∧
        ((calculateMACD data f s sig).getD i dummyMACDData).time
          = (data.getD (i + (s + sig - 2)) dummyCandle).time := by
    intro f s sig hf hfs hsig hn
    refine ⟨calculateMACD_length data f s sig hf hfs hsig hn, ?_⟩
    intro i hi
    have hlib : (MACD_calculate f s sig (data.map (fun d => d.close))).length
        = data.length - (s + sig - 2) := by
      rw [MACD_calculate_length f s sig _ hf hfs hsig (by omega), hmap]
    exact ⟨by omega, calculateMACD_time data f s sig i (by omega)⟩
  refine ⟨?_, ?_, partMACD, ?_⟩
  · intro p hp1 hpn
    have hSlib : (SMA_calculate p (data.map (fun d => d.close))).length
        = data.length + 1 - p := by
      rw [SMA_calculate_length p _ (by omega), hmap]
    have hElib : (EMA_calculate p (data.map (fun d => d.close))).length
        = data.length + 1 - p := by
      rw [EMA_calculate_length p _ (by omega), hmap]
    refine ⟨by rw [calculateSMA_length data p hpn]; omega,
      by rw [calculateEMA_length data p hpn]; omega,
      fun sd sq => by rw [calculateBollingerBands_length data p sd sq hpn]; omega, ?_⟩
    intro i hi
    have hidx : i + p - 1 = i + (p - 1) := by omega
    refine ⟨by omega, ?_, ?_, ?_⟩
    · rw [← hidx]; exact calculateSMA_time data p i (by omega)
    · rw [← hidx]; exact calculateEMA_time data p i (by omega)
    · intro sd sq
      have hBlib : (BollingerBands_calculate p sd sq (data.map (fun d => d.close))).length
          = data.length + 1 - p := by
        rw [BollingerBands_calculate_length p sd sq _ (by omega), hmap]
      rw [← hidx]; exact calculateBollingerBands_time data p i sd sq (by omega)
  · intro p hp1 hpn
    have hRlib : (RSI_calculate p (data.map (fun d => d.close))).length
        = data.length - p := by
      rw [RSI_calculate_length p _ (by omega), hmap]
    refine ⟨calculateRSI_length data p hpn, ?_⟩
    intro i hi
    exact ⟨by omega, calculateRSI_time data p i (by omega)⟩
  · intro h100
    obtain ⟨hlen, hptw⟩ := partMACD 12 26 9 (by norm_num) (by norm_num) (by norm_num)
      (by omega)
    refine ⟨by rw [hlen]; omega, ?_⟩
    obtain ⟨hb, ht⟩ := hptw 0 (by omega)
    simpa using ht

/-- Claim C1 witness: the alignment theorem instantiated on the concrete ascending
100-candle sample series. -/
theorem C1_indicator_alignment_witness :
    (calculateSMA sampleCandles 20).length = 81 ∧
    ((calculateSMA sampleCandles 20).getD 0 dummyIndicatorData).time
      = (sampleCandles.getD 19 dummyCandle).time ∧
    (calculateRSI sampleCandles 14).length = 86 ∧
    (calculateMACD sampleCandles 12 26 9).length = 67 ∧
    ((calculateMACD sampleCandles 12 26 9).getD 0 dummyMACDData).time
      = (sampleCandles.getD 33 dummyCandle).time := by
  obtain ⟨partP, partRSI, partMACD, partScen⟩ :=
    C1_indicator_alignment sampleCandles (by decide)
  have h100 : sampleCandles.length = 100 := by decide
  obtain ⟨hS, hE, hB, hptw⟩ := partP 20 (by decide) (by rw [h100]; decide)
  obtain ⟨hRlen, hRptw⟩ := partRSI 14 (by decide) (by rw [h100]; decide)
  obtain ⟨hMlen, hMscen⟩ := partScen h100
  refine ⟨by rw [hS, h100], ?_, by rw [hRlen, h100], hMlen, hMscen⟩
  have h0 : 0 < sampleCandles.length - (20 - 1) := by rw [h100]; decide
  obtain ⟨hb, ht, _⟩ := hptw 0 h0
  simpa using ht

/-- Claim C5: for input series shorter than the warmup requirement (length < period
for SMA, EMA and Bollinger; length < period + 1 for RSI) the indicator
functions return the empty series (total functions, no exception and no
out-of-bounds access). -/
theorem C5_short_input_empty (p : ℕ) (data : List Candle) (sd : ℚ) (sq : ℚ → ℚ) :
    (data.length < p →
      calculateSMA data p = [] ∧ calculateEMA data p = [] ∧
      calculateBollingerBands data p sd sq = []) ∧
    (data.length < p + 1 → calculateRSI data p = []) := by
  constructor
  · intro h
    refine ⟨?_, ?_, ?_⟩
    · simp only [calculateSMA]
      rw [SMA_calculate, if_pos (by simpa using h)]
      simp
    · simp only [calculateEMA]
      rw [EMA_calculate, if_pos (by simpa using h)]
      simp
    · simp only [calculateBollingerBands]
      rw [BollingerBands_calculate, if_pos (by simpa using h)]
      simp
  · intro h
    simp only [calculateRSI]
    rw [RSI_calculate, if_pos (by simpa using h)]
    simp

/-- Claim C5 witness: a 1-candle series with period 5 produces empty outputs for
every indicator. -/
theorem C5_short_input_empty_witness :
    ([dummyCandle] : List Candle).length < 5 ∧
    calculateSMA [dummyCandle] 5 = [] ∧
    calculateEMA [dummyCandle] 5 = [] ∧
    calculateBollingerBands [dummyCandle] 5 2 id = [] ∧
    calculateRSI [dummyCandle] 5 = [] := by
  obtain ⟨hA, hB⟩ := C5_short_input_empty 5 [dummyCandle] 2 id
  exact ⟨by decide, (hA (by decide)).1, (hA (by decide)).2.1, (hA (by decide)).2.2,
    hB (by decide)⟩

theorem mapInsert_map_time (m : List Candle) (c : Candle) :
    (mapInsert m c).map Candle.time =
      if c.time ∈ m.map Candle.time then m.map Candle.time
      else m.map Candle.time ++ [c.time] := by
  by_cases hc : c.time ∈ m.map Candle.time
  · rw [mapInsert, if_pos hc, if_pos hc, List.map_map]
    refine List.map_congr_left (fun x hx => ?_)
    by_cases hxc : x.time = c.time
    · simp [Function.comp, hxc]
    · simp [Function.comp, hxc]
  · rw [mapInsert, if_neg hc, if_neg hc]
    simp

theorem dedupByTime_times_nodup (l : List Candle) :
    ((dedupByTime l).map Candle.time).Nodup := by
  have H : ∀ (l' acc : List Candle), (acc.map Candle.time).Nodup →
      ((l'.foldl mapInsert acc).map Candle.time).Nodup := by
    intro l'
    induction l' with
    | nil => intro acc h; simpa using h
    | cons c tl ih =>
      intro acc h
      rw [List.foldl_cons]
      refine ih _ ?_
      rw [mapInsert_map_time]
      by_cases hc : c.time ∈ acc.map Candle.time
      · rw [if_pos hc]; exact h
      · rw [if_neg hc]
        refine List.Nodup.append h (List.nodup_singleton _) ?_
        simpa [List.disjoint_singleton] using hc
  exact H l [] (by simp)

theorem sortTimeAsc_perm (l : List Candle) : List.Perm (sortTimeAsc l) l :=
  List.perm_insertionSort _ l

theorem sortTimeAsc_sorted (l : List Candle) :
    List.Sorted (fun a b : Candle => a.time ≤ b.time) (sortTimeAsc l) :=
  List.sorted_insertionSort _ l

theorem sortTimeAsc_of_sorted {l : List Candle}
    (h : List.Sorted (fun a b : Candle => a.time ≤ b.time) l) : sortTimeAsc l = l :=
  h.insertionSort_eq

theorem postprocess_eq (s e : ℤ) (l : List Candle) :
    postprocess s e l = sortTimeAsc ((dedupByTime l).filter (fun c =>
      decide ((s : ℚ) ≤ c.time * 1000) && decide (c.time * 1000 ≤ (e : ℚ)))) := rfl

theorem postprocess_times_nodup (s e : ℤ) (l : List Candle) :
    ((postprocess s e l).map Candle.time).Nodup := by
  rw [postprocess_eq]
  have h2 : List.Sublist ((dedupByTime l).filter (fun c =>
      decide ((s : ℚ) ≤ c.time * 1000) && decide (c.time * 1000 ≤ (e : ℚ))))
      (dedupByTime l) := List.filter_sublist _
  have h3 := (dedupByTime_times_nodup l).sublist (h2.map Candle.time)
  exact ((sortTimeAsc_perm _).map Candle.time).nodup_iff.2 h3

theorem postprocess_sorted (s e : ℤ) (l : List Candle) :
    List.Sorted (fun a b : Candle => a.time ≤ b.time) (postprocess s e l) := by
  rw [postprocess_eq]
  exact sortTimeAsc_sorted _

theorem postprocess_pairwise_lt (s e : ℤ) (l : List Candle) :
    List.Pairwise (fun a b : Candle => a.time < b.time) (postprocess s e l) := by
  have hs : List.Pairwise (fun a b : Candle => a.time ≤ b.time) (postprocess s e l) :=
    postprocess_sorted s e l
  have hn : List.Pairwise (fun a b : Candle => a.time ≠ b.time) (postprocess s e l) :=
    List.pairwise_map.1 (postprocess_times_nodup s e l)
  exact (hs.and hn).imp (fun h => lt_of_le_of_ne h.1 h.2)

theorem postprocess_mem_bounds (s e : ℤ) (l : List Candle) (c : Candle)
    (hc : c ∈ postprocess s e l) :
    (s : ℚ) ≤ c.time * 1000 ∧ c.time * 1000 ≤ (e : ℚ) := by
  rw [postprocess_eq] at hc
  have hc2 := (sortTimeAsc_perm _).mem_iff.1 hc
  have hc3 := List.mem_filter.1 hc2
  simpa using hc3.2

theorem fetchCompleteData_snd (fetch : FetchOracle) (tf : String) (s e : ℤ) :
    (fetchCompleteData fetch tf s e).2
      = postprocess s e ((fetchRaw fetch tf s e).2.map toCandle) := rfl

theorem fetchCompleteData_snd_sorted (fetch : FetchOracle) (tf : String) (s e : ℤ) :
    List.Sorted (fun a b : Candle => a.time ≤ b.time) (fetchCompleteData fetch tf s e).2 := by
  rw [fetchCompleteData_snd]
  exact postprocess_sorted _ _ _

/-- Claim C3: for every fetch oracle (hence every sequence of batch responses,
including overlapping boundary candles and out-of-range padding), the
assembled series is strictly ascending in time with no duplicates, and every
candle's time lies inside `[startMs/1000, endMs/1000]`, both ends included. -/
theorem C3_assembler_sorted_in_range (fetch : FetchOracle) (tf : String) (s e : ℤ) :
    List.Pairwise (fun a b : Candle => a.time < b.time) (fetchCompleteData fetch tf s e).2 ∧
    ∀ c ∈ (fetchCompleteData fetch tf s e).2,
      (s : ℚ) / 1000 ≤ c.time ∧ c.time ≤ (e : ℚ) / 1000 := by
  constructor
  · rw [fetchCompleteData_snd]
    exact postprocess_pairwise_lt s e _
  · intro c hc
    rw [fetchCompleteData_snd] at hc
    obtain ⟨h1, h2⟩ := postprocess_mem_bounds s e _ c hc
    constructor
    · rw [div_le_iff₀ (by norm_num : (0:ℚ) < 1000)]; linarith
    · rw [le_div_iff₀ (by norm_num : (0:ℚ) < 1000)]; linarith

/-- Claim C3 witness: a batch response with a duplicated timestamp and two
out-of-range padding rows assembles to a strictly ascending in-range series
containing the deduplicated candle. -/
theorem C3_assembler_sorted_in_range_witness :
    List.Pairwise (fun a b : Candle => a.time < b.time)
      (fetchCompleteData demoFetch "1h" 0 432000000).2 ∧
    Candle.mk 60 0 0 0 2 0 ∈ (fetchCompleteData demoFetch "1h" 0 432000000).2 ∧
    ((0 : ℤ) : ℚ) / 1000 ≤ (Candle.mk 60 0 0 0 2 0).time ∧
    (Candle.mk 60 0 0 0 2 0).time ≤ ((432000000 : ℤ) : ℚ) / 1000 := by
  have h := C3_assembler_sorted_in_range demoFetch "1h" 0 432000000
  have hmem : Candle.mk 60 0 0 0 2 0 ∈ (fetchCompleteData demoFetch "1h" 0 432000000).2 := by
    decide
  obtain ⟨hb1, hb2⟩ := h.2 _ hmem
  exact ⟨h.1, hmem, hb1, hb2⟩

theorem cachedKlinesGET_miss_empty (fetch : FetchOracle) (tf : String) (cs : CoinSettings)
    (forceRefresh : Bool) (prevCache : List Candle)
    (hmiss : forceRefresh = true ∨ prevCache = [])
    (hempty : (fetchCompleteData fetch tf (cs.publishTime - 86400000)
      (cs.publishTime + 4 * 86400000)).2 = []) :
    cachedKlinesGET fetch tf (some cs) forceRefresh prevCache =
      { data := []
        cached := some false
        cacheAfter := prevCache
        calls := (fetchCompleteData fetch tf (cs.publishTime - 86400000)
          (cs.publishTime + 4 * 86400000)).1 } := by
  have hcond : ¬(forceRefresh = false ∧ prevCache ≠ []) := by
    rcases hmiss with h | h
    · subst h; simp
    · subst h; simp
  have hempty' : (fetchCompleteData fetch tf (cs.publishTime - 86400000)
      (cs.publishTime + 345600000)).2 = [] := by simpa using hempty
  simp only [cachedKlinesGET]
  rw [if_neg hcond]
  simp [hempty']

/-- Claim C10 (implicit frame effect): whenever the assembly for the request's
window produces zero candles — for any upstream whatsoever, including one whose
batches are nonempty but fall entirely outside the window — a cache miss or
forced refresh leaves the cache rows for the key untouched and returns the
empty series with `cached: false`. -/
theorem C10_empty_assembly_no_write (fetch : FetchOracle) (tf : String)
    (cs : CoinSettings) (prevCache : List Candle)
    (hempty : (fetchCompleteData fetch tf (cs.publishTime - 86400000)
      (cs.publishTime + 4 * 86400000)).2 = []) :
    ((cachedKlinesGET fetch tf (some cs) true prevCache).cacheAfter = prevCache ∧
      (cachedKlinesGET fetch tf (some cs) true prevCache).data = [] ∧
      (cachedKlinesGET fetch tf (some cs) true prevCache).cached = some false) ∧
    ((cachedKlinesGET fetch tf (some cs) false []).cacheAfter = [] ∧
      (cachedKlinesGET fetch tf (some cs) false []).data = [] ∧
      (cachedKlinesGET fetch tf (some cs) false []).cached = some false) := by
  rw [cachedKlinesGET_miss_empty fetch tf cs true prevCache (Or.inl rfl) hempty,
    cachedKlinesGET_miss_empty fetch tf cs false [] (Or.inr rfl) hempty]
  exact ⟨⟨rfl, rfl, rfl⟩, ⟨rfl, rfl, rfl⟩⟩

/-- Claim C10 witness: a stale cached row, and an upstream whose batches are
nonempty but contain only out-of-range rows, so the assembly itself is empty:
a forced refresh keeps the stale row stored and returns the empty series. -/
theorem C10_empty_assembly_no_write_witness :
    (fetchCompleteData outOfRangeFetch "1h"
        (((⟨86400000⟩ : CoinSettings).publishTime - 86400000))
        (((⟨86400000⟩ : CoinSettings).publishTime + 4 * 86400000))).2 = [] ∧
    outOfRangeFetch (some 0) 120 ≠ [] ∧
    (cachedKlinesGET outOfRangeFetch "1h" (some ⟨86400000⟩) true [staleCandle]).cacheAfter
        = [staleCandle] ∧
    (cachedKlinesGET outOfRangeFetch "1h" (some ⟨86400000⟩) true [staleCandle]).data = [] := by
  obtain ⟨⟨h1, h2, _⟩, _⟩ :=
    C10_empty_assembly_no_write outOfRangeFetch "1h" ⟨86400000⟩ [staleCandle] (by decide)
  exact ⟨by decide, by decide, h1, h2⟩

theorem cachedKlinesGET_miss_nonempty (fetch : FetchOracle) (tf : String)
    (cs : CoinSettings) (forceRefresh : Bool) (prevCache : List Candle)
    (hmiss : forceRefresh = true ∨ prevCache = [])
    (hne : (fetchCompleteData fetch tf (cs.publishTime - 86400000)
      (cs.publishTime + 4 * 86400000)).2 ≠ []) :
    cachedKlinesGET fetch tf (some cs) forceRefresh prevCache =
      { data := (fetchCompleteData fetch tf (cs.publishTime - 86400000)
          (cs.publishTime + 4 * 86400000)).2
        cached := some false
        cacheAfter := (fetchCompleteData fetch tf (cs.publishTime - 86400000)
          (cs.publishTime + 4 * 86400000)).2
        calls := (fetchCompleteData fetch tf (cs.publishTime - 86400000)
          (cs.publishTime + 4 * 86400000)).1 } := by
  have hcond : ¬(forceRefresh = false ∧ prevCache ≠ []) := by
    rcases hmiss with h | h
    · subst h; simp
    · subst h; simp
  have hne' : ¬(fetchCompleteData fetch tf (cs.publishTime - 86400000)
      (cs.publishTime + 345600000)).2 = [] := by simpa using hne
  simp only [cachedKlinesGET]
  rw [if_neg hcond]
  simp [hne']

/-- Claim C2 counterexample: with an upstream yielding no candles, a forced refresh
against a nonempty stored series leaves the old rows in place, so the
subsequent `get` returns the old series instead of the (empty) freshly
assembled one — the claimed unconditional full replacement fails. -/
theorem C2_full_replace_counterexample :
    (cachedKlinesGET emptyFetch "1h" (some ⟨86400000⟩) true [staleCandle]).data = [] ∧
    (cachedKlinesGET emptyFetch "1h" (some ⟨86400000⟩) true [staleCandle]).cacheAfter
        = [staleCandle] ∧
    (cachedKlinesGET emptyFetch "1h" (some ⟨86400000⟩) false
        (cachedKlinesGET emptyFetch "1h" (some ⟨86400000⟩) true [staleCandle]).cacheAfter).data
        = [staleCandle] := by
  exact ⟨by decide, by decide, by decide⟩

/-- Claim C2 (amended): provided the freshly assembled series is nonempty, a cache
refresh (forced refresh, or cache miss) fully replaces the stored rows for the
key with the assembled series, and an immediately following `get` for the same
key returns exactly that series, regardless of what was stored previously. -/
theorem C2_full_replace_amended (fetch : FetchOracle) (tf : String) (cs : CoinSettings)
    (prevCache : List Candle)
    (hne : (cachedKlinesGET fetch tf (some cs) true prevCache).data ≠ []) :
    (cachedKlinesGET fetch tf (some cs) true prevCache).cacheAfter
        = (cachedKlinesGET fetch tf (some cs) true prevCache).data ∧
    (cachedKlinesGET fetch tf (some cs) false
        (cachedKlinesGET fetch tf (some cs) true prevCache).cacheAfter).data
        = (cachedKlinesGET fetch tf (some cs) true prevCache).data ∧
    (cachedKlinesGET fetch tf (some cs) false
        (cachedKlinesGET fetch tf (some cs) true prevCache).cacheAfter).cacheAfter
        = (cachedKlinesGET fetch tf (some cs) true prevCache).data := by
  have hne' : (fetchCompleteData fetch tf (cs.publishTime - 86400000)
      (cs.publishTime + 4 * 86400000)).2 ≠ [] := by
    intro h0
    exact hne (by rw [cachedKlinesGET_miss_empty fetch tf cs true prevCache (Or.inl rfl) h0])
  have hfirst := cachedKlinesGET_miss_nonempty fetch tf cs true prevCache (Or.inl rfl) hne'
  have hhit : cachedKlinesGET fetch tf (some cs) false
      (fetchCompleteData fetch tf (cs.publishTime - 86400000)
        (cs.publishTime + 4 * 86400000)).2 =
      { data := sortTimeAsc (fetchCompleteData fetch tf (cs.publishTime - 86400000)
          (cs.publishTime + 4 * 86400000)).2
        cached := some true
        cacheAfter := (fetchCompleteData fetch tf (cs.publishTime - 86400000)
          (cs.publishTime + 4 * 86400000)).2
        calls := [] } := by
    simp only [cachedKlinesGET]
    rw [if_pos ⟨trivial, hne'⟩]
  have hsort : sortTimeAsc (fetchCompleteData fetch tf (cs.publishTime - 86400000)
      (cs.publishTime + 4 * 86400000)).2 =
      (fetchCompleteData fetch tf (cs.publishTime - 86400000)
        (cs.publishTime + 4 * 86400000)).2 :=
    sortTimeAsc_of_sorted (fetchCompleteData_snd_sorted _ _ _ _)
  rw [hfirst]
  refine ⟨rfl, ?_, ?_⟩
  · show (cachedKlinesGET fetch tf (some cs) false _).data = _
    rw [hhit]
    exact hsort
  · show (cachedKlinesGET fetch tf (some cs) false _).cacheAfter = _
    rw [hhit]

/-- Claim C2 witness: a nonempty single-candle assembly replaces a stale stored row
and is returned verbatim by the following get. -/
theorem C2_full_replace_amended_witness :
    (cachedKlinesGET singletonFetch "1h" (some ⟨86400000⟩) true [staleCandle]).data ≠ [] ∧
    (cachedKlinesGET singletonFetch "1h" (some ⟨86400000⟩) true [staleCandle]).cacheAfter
        = (cachedKlinesGET singletonFetch "1h" (some ⟨86400000⟩) true [staleCandle]).data ∧
    (cachedKlinesGET singletonFetch "1h" (some ⟨86400000⟩) false
        (cachedKlinesGET singletonFetch "1h" (some ⟨86400000⟩) true [staleCandle]).cacheAfter).data
        = (cachedKlinesGET singletonFetch "1h" (some ⟨86400000⟩) true [staleCandle]).data := by
  have h := C2_full_replace_amended singletonFetch "1h" ⟨86400000⟩ [staleCandle] (by decide)
  exact ⟨by decide, h.1, h.2.1⟩

/-- Claim C6 counterexample: the fetchers compute `time` as `timestampMs / 1000`
with JS real division, not integer division; at the non-multiple-of-1000
timestamp 1500 ms the produced time is 3/2, which differs from the integer
division result 1 and is not a whole number. -/
theorem C6_integer_division_counterexample :
    (toCandle ⟨1500, 0, 0, 0, 0, 0⟩).time ≠ (((1500 : ℤ) / 1000 : ℤ) : ℚ) ∧
    ((toCandle ⟨1500, 0, 0, 0, 0, 0⟩).time).den = 2 := by
  exact ⟨by decide, by decide⟩

/-- Claim C6 (amended): the fetchers convert the millisecond timestamp by exact
division by 1000 (`time * 1000` recovers the timestamp), and the result
coincides with integer division — in particular is a whole number — exactly
when the millisecond timestamp is a multiple of 1000. -/
theorem C6_time_conversion_amended (r : RawCandle) :
    (toCandle r).time * 1000 = (r.tms : ℚ) ∧
    (1000 ∣ r.tms → (toCandle r).time = ((r.tms / 1000 : ℤ) : ℚ)) := by
  constructor
  · show ((r.tms : ℚ) / 1000) * 1000 = (r.tms : ℚ)
    field_simp
  · rintro ⟨k, hk⟩
    show ((r.tms : ℚ)) / 1000 = ((r.tms / 1000 : ℤ) : ℚ)
    rw [hk, Int.mul_ediv_cancel_left _ (by norm_num)]
    push_cast
    ring

/-- Claim C6 witness: at the whole-second timestamp 3000 ms the conversion agrees
with integer division. -/
theorem C6_time_conversion_amended_witness :
    (1000 : ℤ) ∣ 3000 ∧
    (toCandle ⟨3000, 0, 0, 0, 0, 0⟩).time * 1000 = ((3000 : ℤ) : ℚ) ∧
    (toCandle ⟨3000, 0, 0, 0, 0, 0⟩).time = (((3000 : ℤ) / 1000 : ℤ) : ℚ) := by
  have h := C6_time_conversion_amended ⟨3000, 0, 0, 0, 0, 0⟩
  exact ⟨by decide, h.1, h.2 (by decide)⟩

/-- Claim C7: with no settings/anchor record for the pair, the route bypasses the
cache and the range assembler entirely: it issues exactly the single direct
recent-window fetch `(since = undefined, limit = 500)`, returns its result,
and persists nothing. -/
theorem C7_no_settings_bypass (fetch : FetchOracle) (tf : String) (forceRefresh : Bool)
    (prevCache : List Candle) :
    (cachedKlinesGET fetch tf none forceRefresh prevCache).calls = [(none, 500)] ∧
    (cachedKlinesGET fetch tf none forceRefresh prevCache).data
        = (fetch none 500).map toCandle ∧
    (cachedKlinesGET fetch tf none forceRefresh prevCache).cached = none ∧
    (cachedKlinesGET fetch tf none forceRefresh prevCache).cacheAfter = prevCache :=
  ⟨rfl, rfl, rfl, rfl⟩

/-- Claim C8: a timeframe key outside the fixed table resolves, without error, to
the 1h default of 60 minutes per candle, and the whole assembly then behaves
exactly as for the "1h" key. -/
theorem C8_unknown_timeframe_default (tf : String)
    (h : tf ∉ (["1m", "5m", "15m", "1h", "4h", "1d"] : List String)) :
    timeframeToMinutes tf = 60 ∧
    ∀ (fetch : FetchOracle) (s e : ℤ),
      fetchCompleteData fetch tf s e = fetchCompleteData fetch "1h" s e := by
  simp only [List.mem_cons, List.not_mem_nil, or_false, not_or] at h
  obtain ⟨h1, h2, h3, h4, h5, h6⟩ := h
  have hm : timeframeToMinutes tf = 60 := by
    rw [timeframeToMinutes, if_neg h1, if_neg h2, if_neg h3, if_neg h4, if_neg h5, if_neg h6]
  refine ⟨hm, ?_⟩
  intro fetch s e
  have hm' : timeframeToMinutes "1h" = 60 := by decide
  simp only [fetchCompleteData, fetchRaw, requiredLimit, hm, hm']

/-- Claim C8 witness: the unknown key "2h" resolves to 60 minutes per candle. -/
theorem C8_unknown_timeframe_default_witness :
    "2h" ∉ (["1m", "5m", "15m", "1h", "4h", "1d"] : List String) ∧
    timeframeToMinutes "2h" = 60 ∧
    fetchCompleteData emptyFetch "2h" 0 432000000
      = fetchCompleteData emptyFetch "1h" 0 432000000 := by
  have h := C8_unknown_timeframe_default "2h" (by decide)
  exact ⟨by decide, h.1, h.2 emptyFetch 0 432000000⟩

theorem timeframeToMinutes_pos (tf : String) : 0 < timeframeToMinutes tf := by
  rw [timeframeToMinutes]
  repeat' split
  all_goals norm_num

theorem batchLoop_calls_length_le (fetch : FetchOracle) (mpc : ℕ) (e : ℤ) :
    ∀ (fuel : ℕ) (since : ℤ), (batchLoop fetch mpc e fuel since).1.length ≤ fuel := by
  intro fuel
  induction fuel with
  | zero => intro since; simp [batchLoop]
  | succ n ih =>
    intro since
    simp only [batchLoop]
    split
    · simp
    · cases hlast : (fetch (some since) 1000).getLast? with
      | none => simp [hlast]
      | some lastCandle =>
        simp only [hlast]
        exact Nat.succ_le_succ (ih _)

set_option maxRecDepth 400000 in
/-- Claim C4: the assembler computes
`requiredCount = ceil((endMs − startMs) / 60000 / minutesPerCandle)`; when it
is at most the 1000-candle cap it issues exactly one fetch anchored at startMs
with `limit = requiredCount` (for a 1h timeframe over a 5-day window: one call
with limit 120); otherwise it issues at most `ceil(requiredCount/1000)`
sequential batches (for a 1m timeframe over a 5-day window against an ideal
upstream: exactly 8 batches, each `since` advancing past the prior batch's
last candle by one 60000 ms interval), stopping early when a batch returns
zero rows. -/
theorem C4_range_assembler_batching :
    (∀ (tf : String) (s e : ℤ),
      requiredLimit tf s e
        = ⌈((e - s : ℤ) : ℚ) / (60000 * (timeframeToMinutes tf : ℚ))⌉) ∧
    (∀ (fetch : FetchOracle) (tf : String) (s e : ℤ),
      requiredLimit tf s e ≤ 1000 →
      (fetchCompleteData fetch tf s e).1 = [(some s, requiredLimit tf s e)]) ∧
    (∀ (fetch : FetchOracle) (s : ℤ),
      requiredLimit "1h" s (s + 432000000) = 120 ∧
      (fetchCompleteData fetch "1h" s (s + 432000000)).1 = [(some s, 120)]) ∧
    ((fetchCompleteData ideal1m "1m" 0 432000000).1 =
      [(some 0, 1000), (some 60000000, 1000), (some 120000000, 1000), (some 180000000, 1000),
       (some 240000000, 1000), (some 300000000, 1000), (some 360000000, 1000),
       (some 420000000, 1000)]) ∧
    (∀ (fetch : FetchOracle) (tf : String) (s e : ℤ),
      1000 < requiredLimit tf s e →
      (fetchCompleteData fetch tf s e).1.length
        ≤ (⌈(requiredLimit tf s e : ℚ) / 1000⌉).toNat) ∧
    (∀ (fetch : FetchOracle) (tf : String) (s e : ℤ),
      1000 < requiredLimit tf s e →
      fetch (some s) 1000 = [] →
      (fetchCompleteData fetch tf s e).1 = [(some s, 1000)]) := by
  have hformula : ∀ (tf : String) (s e : ℤ),
      requiredLimit tf s e
        = ⌈((e - s : ℤ) : ℚ) / (60000 * (timeframeToMinutes tf : ℚ))⌉ := by
    intro tf s e
    rw [requiredLimit, div_div]
    norm_num
  have hsingle : ∀ (fetch : FetchOracle) (tf : String) (s e : ℤ),
      requiredLimit tf s e ≤ 1000 →
      (fetchCompleteData fetch tf s e).1 = [(some s, requiredLimit tf s e)] := by
    intro fetch tf s e hle
    show (fetchRaw fetch tf s e).1 = _
    rw [fetchRaw, if_pos hle]
  have hslt : ∀ (tf : String) (s e : ℤ), 1000 < requiredLimit tf s e → s < e := by
    intro tf s e h
    have hq : ((1000 : ℤ) : ℚ) < ((e - s : ℤ) : ℚ) / (1000 * 60) / (timeframeToMinutes tf : ℚ) :=
      Int.lt_ceil.1 h
    have hmpos : (0 : ℚ) < (timeframeToMinutes tf : ℚ) := by
      exact_mod_cast timeframeToMinutes_pos tf
    by_contra hc
    push_neg at hc
    have hx : ((e - s : ℤ) : ℚ) ≤ 0 := by exact_mod_cast sub_nonpos.mpr hc
    have h1 : ((e - s : ℤ) : ℚ) / (1000 * 60) ≤ 0 :=
      div_nonpos_iff.mpr (Or.inr ⟨hx, by norm_num⟩)
    have h2 : ((e - s : ℤ) : ℚ) / (1000 * 60) / (timeframeToMinutes tf : ℚ) ≤ 0 :=
      div_nonpos_iff.mpr (Or.inr ⟨h1, hmpos.le⟩)
    have : ((1000 : ℤ) : ℚ) ≤ 0 := le_trans hq.le h2
    norm_num at this
  have hfuel : ∀ (tf : String) (s e : ℤ), 1000 < requiredLimit tf s e →
      ∃ n, (⌈(requiredLimit tf s e : ℚ) / 1000⌉).toNat = n + 1 := by
    intro tf s e h
    have h1 : (1 : ℚ) < (requiredLimit tf s e : ℚ) / 1000 := by
      rw [lt_div_iff₀ (by norm_num : (0 : ℚ) < 1000)]
      have h1000 : (1000 : ℚ) < (requiredLimit tf s e : ℚ) := by exact_mod_cast h
      linarith
    have h2 : (1 : ℤ) < ⌈(requiredLimit tf s e : ℚ) / 1000⌉ := by
      have := Int.lt_ceil.2 (by exact_mod_cast h1 : ((1 : ℤ) : ℚ) < (requiredLimit tf s e : ℚ) / 1000)
      exact this
    refine ⟨(⌈(requiredLimit tf s e : ℚ) / 1000⌉).toNat - 1, ?_⟩
    omega
  refine ⟨hformula, hsingle, ?_, ?_, ?_, ?_⟩
  · intro fetch s
    have h120 : requiredLimit "1h" s (s + 432000000) = 120 := by
      rw [requiredLimit]
      have hsub : ((s + 432000000 - s : ℤ) : ℚ) = 432000000 := by push_cast; ring
      rw [hsub, show timeframeToMinutes "1h" = 60 from by decide]
      norm_num
    refine ⟨h120, ?_⟩
    rw [hsingle fetch "1h" s (s + 432000000) (by rw [h120]; norm_num), h120]
  · decide
  · intro fetch tf s e h
    show (fetchRaw fetch tf s e).1.length ≤ _
    rw [fetchRaw, if_neg (not_le.mpr h)]
    exact batchLoop_calls_length_le fetch _ e _ s
  · intro fetch tf s e h hzero
    obtain ⟨n, hn⟩ := hfuel tf s e h
    show (fetchRaw fetch tf s e).1 = _
    rw [fetchRaw, if_neg (not_le.mpr h), hn]
    simp only [batchLoop]
    rw [if_neg (not_le.mpr (hslt tf s e h)), hzero]
    rfl

/-- Claim C4 witness: the single-batch hypothesis discharged concretely — a 1h
5-day window needs 120 candles and issues exactly one call. -/
theorem C4_range_assembler_batching_witness :
    requiredLimit "1h" 0 432000000 ≤ 1000 ∧
    (fetchCompleteData emptyFetch "1h" 0 432000000).1
      = [(some 0, requiredLimit "1h" 0 432000000)] := by
  refine ⟨by decide, ?_⟩
  exact C4_range_assembler_batching.2.1 emptyFetch "1h" 0 432000000 (by decide)

end CryptoReviewTool
